import Mathlib

/-!
Verification of the core persistence layer of the `mcp-todo` repository
(`src/database.ts` together with the schema in `src/schema.ts` and the applied
migration DDL in `drizzle/0000_free_bloodscream.sql`).

The embedding models the SQLite database as explicit lists of rows and each
repository helper as a pure state-passing function.  Statement-level behaviour
of the statistics triggers (`update_todo_list_stats_on_insert` / `_on_update` /
`_on_delete` from `applyAdditionalSQL`) is modelled by recomputing the owning
list's `num_completed` / `total_count` after every INSERT / UPDATE / DELETE on
the `todo` table, exactly as the trigger bodies do.

Notes on fidelity:
* `updated_at` timestamps and the `settings` table are not modelled; no claim
  below mentions them.
* The applied migration DDL declares no foreign-key clauses (the
  `PRAGMA foreign_keys = ON` therefore has nothing to enforce), so row
  mutations are modelled without referential checks and deleting a list does
  not cascade at the storage level.
* JavaScript truthiness tests on optional arguments (`if (!content)`,
  `if (!listId)`, `if (todo_list_id)`) are modelled by `strFalsy` / `numFalsy`:
  `undefined` and `""` are falsy strings, `undefined` and `0` are falsy
  numbers.
-/

/-- `status` column values of the `todo` table (`schema.ts`). -/
inductive Status where
  | pending
  | in_progress
  | completed
deriving DecidableEq, Repr

/-- `priority` column values of the `todo` table (`schema.ts`). -/
inductive Priority where
  | high
  | medium
  | low
deriving DecidableEq, Repr

/-- A row of the `todo` table. -/
structure Todo where
  id : Nat
  todo_list_id : Nat
  content : String
  status : Status
  priority : Priority
deriving DecidableEq, Repr

/-- A row of the `todo_list` table.  `num_completed` and `total_count` are
nullable integers maintained by the statistics triggers. -/
structure TodoList where
  id : Nat
  project_id : Nat
  name : String
  description : Option String
  num_completed : Option Nat
  total_count : Option Nat
deriving DecidableEq, Repr

/-- A row of the `project` table. -/
structure Project where
  id : Nat
  name : String
  location : String
  default_todo_list_id : Option Nat
deriving DecidableEq, Repr

/-- The database contents plus the AUTOINCREMENT counters for the two tables
whose rows are created with store-assigned ids. -/
structure Db where
  projects : List Project
  lists : List TodoList
  todos : List Todo
  nextProjectId : Nat
  nextListId : Nat
deriving DecidableEq, Repr

/-- Process-wide state: the database plus the in-memory `cachedProject`
singleton of `database.ts`. -/
structure AppState where
  db : Db
  cachedProject : Option Project
deriving DecidableEq, Repr

/-- Distinguishable failure conditions thrown by the repository helpers; the
payload is the thrown `Error` message from `database.ts`. -/
inductive DbError where
  | validation : String → DbError
  | notFound : String → DbError
  | domainRule : String → DbError
deriving DecidableEq, Repr

/-- Message payload of a `DbError` (what `error.message` carries in the
batch-result entries). -/
def errMsg : DbError → String
  | .validation m => m
  | .notFound m => m
  | .domainRule m => m

/-- JavaScript falsiness of an optional string: `undefined` and `""`. -/
def strFalsy : Option String → Bool
  | none => true
  | some s => s == ""

/-- JavaScript falsiness of an optional number: `undefined` and `0`. -/
def numFalsy : Option Nat → Bool
  | none => true
  | some n => n == 0

/-- `status = 'completed'` test used by the statistics triggers. -/
def isCompleted (t : Todo) : Bool :=
  match t.status with
  | .completed => true
  | _ => false

/-- `SELECT COUNT(*) FROM todo WHERE todo_list_id = lid`. -/
def liveTotal (todos : List Todo) (lid : Nat) : Nat :=
  (todos.filter (fun t => t.todo_list_id == lid)).length

/-- `SELECT COUNT(*) FROM todo WHERE todo_list_id = lid AND status = 'completed'`. -/
def liveCompleted (todos : List Todo) (lid : Nat) : Nat :=
  (todos.filter (fun t => t.todo_list_id == lid && isCompleted t)).length

/-- Body of the statistics triggers: `UPDATE todo_list SET num_completed = …,
total_count = … WHERE id = lid`, with the counts taken over the current
`todo` table. -/
def recomputeStats (db : Db) (lid : Nat) : Db :=
  { db with
    lists := db.lists.map (fun l =>
      if l.id == lid then
        { l with
          num_completed := some (liveCompleted db.todos lid)
          total_count := some (liveTotal db.todos lid) }
      else l) }

/-- `INSERT INTO todo` followed by the `update_todo_list_stats_on_insert`
trigger (which recomputes `NEW.todo_list_id`'s statistics). -/
def insertTodo (db : Db) (t : Todo) : Db :=
  recomputeStats { db with todos := db.todos ++ [t] } t.todo_list_id

/-- `UPDATE todo SET … WHERE id = tid` followed by the
`update_todo_list_stats_on_update` trigger, which recomputes the statistics of
`NEW.todo_list_id` only (the row's post-update list). -/
def updateTodoStmt (db : Db) (tid : Nat) (f : Todo → Todo) : Db :=
  match db.todos.find? (fun t => t.id == tid) with
  | none => db
  | some old =>
      recomputeStats
        { db with todos := db.todos.map (fun t => if t.id == tid then f t else t) }
        (f old).todo_list_id

/-- `DELETE FROM todo WHERE id = tid` followed by the
`update_todo_list_stats_on_delete` trigger, which recomputes the statistics of
`OLD.todo_list_id`. -/
def deleteTodoStmt (db : Db) (tid : Nat) : Db :=
  match db.todos.find? (fun t => t.id == tid) with
  | none => db
  | some old =>
      recomputeStats
        { db with todos := db.todos.filter (fun t => !(t.id == tid)) }
        old.todo_list_id

/-- The three kinds of `todo`-table mutations the statistics claims quantify
over: insert, status-only update, delete. -/
inductive TodoOp where
  | insert : Todo → TodoOp
  | setStatus : Nat → Status → TodoOp
  | delete : Nat → TodoOp
deriving DecidableEq, Repr

/-- Execute one mutation (statement plus its triggers). -/
def applyOp (db : Db) : TodoOp → Db
  | .insert t => insertTodo db t
  | .setStatus tid st => updateTodoStmt db tid (fun t => { t with status := st })
  | .delete tid => deleteTodoStmt db tid

/-- Execute a sequence of mutations in order. -/
def applyOps (db : Db) (ops : List TodoOp) : Db :=
  ops.foldl applyOp db

/-- The list owning the row affected by an operation, when the operation
commits a row change (an update/delete of a missing todo touches nothing). -/
def opOwner (db : Db) : TodoOp → Option Nat
  | .insert t => some t.todo_list_id
  | .setStatus tid _ => (db.todos.find? (fun t => t.id == tid)).map (fun t => t.todo_list_id)
  | .delete tid => (db.todos.find? (fun t => t.id == tid)).map (fun t => t.todo_list_id)

/-- The stored statistics of every `todo_list` row with id `lid` agree with the
live counts over the `todo` table. -/
def listStatsLive (db : Db) (lid : Nat) : Prop :=
  ∀ l ∈ db.lists, l.id = lid →
    l.num_completed = some (liveCompleted db.todos lid) ∧
    l.total_count = some (liveTotal db.todos lid)

/-- `num_completed ≤ total_count` for every list whose statistics have been
computed (both fields non-null). -/
def statsLE (db : Db) : Prop :=
  ∀ l ∈ db.lists, ∀ c n, l.num_completed = some c → l.total_count = some n → c ≤ n

instance (db : Db) (lid : Nat) : Decidable (listStatsLive db lid) := by
  unfold listStatsLive; infer_instance

/-- A filesystem path as handed to `findProjectRoot`: an absolute flag plus
its components, which may still contain `"."` / `".."` / empty segments when
the path is not yet resolved. -/
structure RawPath where
  absolute : Bool
  comps : List String
deriving DecidableEq, Repr

/-- Segment normalisation performed by `path.resolve` / `path.join`: drop `"."`
and empty segments, let `".."` remove the previous segment. -/
def normComps (comps : List String) : List String :=
  comps.foldl
    (fun acc c =>
      if c == "." || c == "" then acc
      else if c == ".." then acc.dropLast
      else acc ++ [c])
    []

/-- `path.resolve(start)`: prepend the (already resolved, absolute) working
directory when the path is relative, then normalise.  The result is the
component list of an absolute path. -/
def resolvePath (cwd : List String) (p : RawPath) : List String :=
  normComps ((if p.absolute then [] else cwd) ++ p.comps)

/-- The upward walk of `findProjectRoot`: starting from a resolved directory,
return the first ancestor-or-self containing a project indicator
(`indic`), or `none` when the walk reaches the filesystem root (`[]`) without
a hit.  `path.dirname` on a component list is `List.dropLast`. -/
def walkUp (indic : List String → Bool) (p : List String) : Option (List String) :=
  if indic p then some p
  else
    match h : p with
    | [] => none
    | _ :: _ => walkUp indic p.dropLast
termination_by p.length
decreasing_by
  subst h
  simp only [List.length_dropLast, List.length_cons]
  omega

/-- `findProjectRoot(startPath?)` from `database.ts`: resolve the start
(defaulting to the process working directory), walk upward looking for any of
the project indicators, and on success return the found directory (an
absolute resolved path); when no indicator is found anywhere, return the
ORIGINAL `start` argument unchanged (source line `return start`).  The set of
indicator files present on disk is abstracted into the predicate `indic` on
resolved directories. -/
def findProjectRoot (indic : List String → Bool) (cwd : List String)
    (startPath : Option RawPath) : RawPath :=
  match walkUp indic (resolvePath cwd (startPath.getD ⟨true, cwd⟩)) with
  | some p => ⟨true, p⟩
  | none => startPath.getD ⟨true, cwd⟩

/-- `path.basename` on a location string: the last non-empty `/`-separated
segment, or `""` when there is none. -/
def basenameStr (s : String) : String :=
  (((s.splitOn "/").filter (fun c => !(c == ""))).getLast?).getD ""

/-- Step 2 of `initializeProjectContext`: look the project up by location and
insert a fresh row (AUTOINCREMENT id, name derived from the basename with the
`|| "project"` fallback) when none exists. -/
def projLookup (root : String) (s : AppState) : Project × Db :=
  match s.db.projects.find? (fun p => p.location == root) with
  | some p => (p, s.db)
  | none =>
      let nm := if basenameStr root == "" then "project" else basenameStr root
      let p : Project :=
        { id := s.db.nextProjectId, name := nm, location := root
          default_todo_list_id := none }
      (p, { s.db with
              projects := s.db.projects ++ [p]
              nextProjectId := s.db.nextProjectId + 1 })

/-- Step 3 of `initializeProjectContext`: when the project has no (truthy)
`default_todo_list_id`, insert an `"Inbox"` list and point the project row at
it; step 4 caches the finalised project. -/
def ensureDefaultList (pd : Project × Db) : Project × AppState :=
  if numFalsy pd.1.default_todo_list_id then
    let l : TodoList :=
      { id := pd.2.nextListId, project_id := pd.1.id, name := "Inbox"
        description := some "Default list", num_completed := none, total_count := none }
    let proj2 := { pd.1 with default_todo_list_id := some l.id }
    (proj2,
     { db :=
        { pd.2 with
            lists := pd.2.lists ++ [l]
            nextListId := pd.2.nextListId + 1
            projects := pd.2.projects.map (fun p =>
              if p.id == pd.1.id then { p with default_todo_list_id := some l.id } else p) }
       cachedProject := some proj2 })
  else
    (pd.1, { db := pd.2, cachedProject := some pd.1 })

/-- Steps 2–4 of `initializeProjectContext`, reached when the cache misses. -/
def initializeProjectContextUncached (root : String) (s : AppState) : Project × AppState :=
  ensureDefaultList (projLookup root s)

/-- `initializeProjectContext` (`ensureContext`) from `database.ts`, with the
resolved project root passed in as `root`:
1. return the cached project when its location matches;
2. otherwise look the project up by location, inserting a fresh row (name
   derived from the basename, falling back to `"project"`) when none exists;
3. when the project has no (truthy) `default_todo_list_id`, insert an
   `"Inbox"` list and point the project row at it;
4. cache and return the finalised project. -/
def initializeProjectContext (root : String) (s : AppState) : Project × AppState :=
  match s.cachedProject with
  | some cp =>
      if cp.location == root then (cp, s)
      else initializeProjectContextUncached root s
  | none => initializeProjectContextUncached root s

/-- Priority rank used by the application-level sort in `getTodosByListId`:
`{ high: 0, medium: 1, low: 2 }`. -/
def priorityWeight : Priority → Nat
  | .high => 0
  | .medium => 1
  | .low => 2

/-- The comparator of `getTodosByListId` as a total boolean order: first by
priority rank ascending, ties by id ascending. -/
def todoLE (a b : Todo) : Bool :=
  priorityWeight a.priority < priorityWeight b.priority ||
    (priorityWeight a.priority == priorityWeight b.priority && a.id ≤ b.id)

/-- The sort order of `getTodosByListId` as a relation. -/
def todoOrder : Todo → Todo → Prop := fun a b => todoLE a b = true

instance : DecidableRel todoOrder := fun a b =>
  inferInstanceAs (Decidable (todoLE a b = true))

/-- Resolution of an optional `todo_list_id` argument: a truthy value is used
as given, otherwise (absent or `0`) the current project's default list is
used (`proj.default_todo_list_id!`; a null default is modelled as `0`, an id
no `AUTOINCREMENT`-assigned row carries). -/
def resolveTarget (root : String) (s : AppState) (tlid : Option Nat) : Nat × AppState :=
  if numFalsy tlid then
    let ps := initializeProjectContext root s
    (ps.1.default_todo_list_id.getD 0, ps.2)
  else
    (tlid.getD 0, s)

/-- `getTodosByListId(listId?)`: select the todos of the (resolved) list and
sort them with the priority/id comparator (the source sorts the selected rows
with `Array.sort`; any comparator-respecting sort realises the same ordering
contract, and `List.insertionSort` is used here). -/
def getTodosByListId (root : String) (s : AppState) (listId : Option Nat) :
    List Todo × AppState :=
  let rs := resolveTarget root s listId
  (((rs.2.db.todos.filter (fun t => t.todo_list_id == rs.1)).insertionSort todoOrder), rs.2)

/-- Arguments of `saveTodo`; absent optional fields are `none`. -/
structure SaveTodoInput where
  id : Nat
  content : Option String := none
  priority : Option Priority := none
  status : Option Status := none
  todo_list_id : Option Nat := none
deriving DecidableEq, Repr

/-- The partial-update function of the `saveTodo` patch path: each supplied
field overrides the stored one, omitted fields keep their prior values. -/
def patchTodo (inp : SaveTodoInput) (t : Todo) : Todo :=
  { t with
    content := inp.content.getD t.content
    priority := inp.priority.getD t.priority
    status := inp.status.getD t.status
    todo_list_id := inp.todo_list_id.getD t.todo_list_id }

/-- `saveTodo` from `database.ts` — create-or-patch keyed by the
caller-supplied id:
* id unknown: `content` mandatory (JS-truthy), target list resolved via
  `resolveTarget`, validated to exist, then the row is inserted (statistics
  trigger included) with `priority`/`status` defaulted;
* id known: a truthy `todo_list_id` is validated to exist (NotFound
  otherwise); with no supplied field the call is a no-op returning the
  existing row; otherwise only the supplied fields are updated (statistics
  trigger included). -/
def saveTodo (root : String) (s : AppState) (inp : SaveTodoInput) :
    Except DbError Todo × AppState :=
  match s.db.todos.find? (fun t => t.id == inp.id) with
  | none =>
      if strFalsy inp.content then
        (Except.error (DbError.validation "Content is required when creating a new todo"), s)
      else
        let rs := resolveTarget root s inp.todo_list_id
        match rs.2.db.lists.find? (fun l => l.id == rs.1) with
        | none =>
            (Except.error (DbError.notFound
              ("Todo list with ID " ++ toString rs.1 ++ " not found")), rs.2)
        | some _ =>
            let t : Todo :=
              { id := inp.id, todo_list_id := rs.1, content := inp.content.getD ""
                status := (inp.status).getD Status.pending
                priority := (inp.priority).getD Priority.medium }
            (Except.ok t, { rs.2 with db := insertTodo rs.2.db t })
  | some existing =>
      if !(numFalsy inp.todo_list_id) &&
          (s.db.lists.find? (fun l => some l.id == inp.todo_list_id)).isNone then
        (Except.error (DbError.notFound
          ("Todo list with ID " ++ toString (inp.todo_list_id.getD 0) ++ " not found")), s)
      else if inp.content.isNone && inp.priority.isNone && inp.status.isNone &&
          inp.todo_list_id.isNone then
        (Except.ok existing, s)
      else
        (Except.ok (patchTodo inp existing),
         { s with db := updateTodoStmt s.db inp.id (patchTodo inp) })

/-- `deleteTodoList(id)`: bootstrap the current project, refuse to delete its
default list, then `DELETE FROM todo_list WHERE id = id` and report NotFound
when no row was removed.  The applied migration declares no foreign keys, so
the delete does not cascade to the list's todos. -/
def deleteTodoList (root : String) (s : AppState) (id : Nat) :
    Except DbError Unit × AppState :=
  let ps := initializeProjectContext root s
  if ps.1.default_todo_list_id == some id then
    (Except.error (DbError.domainRule "Cannot delete the default todo list for a project"), ps.2)
  else
    let remaining := ps.2.db.lists.filter (fun l => !(l.id == id))
    let s2 : AppState := { ps.2 with db := { ps.2.db with lists := remaining } }
    if remaining.length == ps.2.db.lists.length then
      (Except.error (DbError.notFound ("Todo list with ID " ++ toString id ++ " not found")), s2)
    else
      (Except.ok (), s2)

/-- One per-item result entry of the batch helpers. -/
structure BatchResult where
  id : Nat
  success : Bool
  error : Option String := none
deriving DecidableEq, Repr

/-- One iteration of the `saveTodoBatch` loop: run `saveTodo`, record a
success or failure entry, and carry the (possibly mutated) state on in either
case — a per-item failure rolls nothing back. -/
def saveTodoStep (root : String) (s : AppState) (inp : SaveTodoInput) :
    BatchResult × AppState :=
  match saveTodo root s inp with
  | (Except.ok _, s') => ({ id := inp.id, success := true }, s')
  | (Except.error e, s') => ({ id := inp.id, success := false, error := some (errMsg e) }, s')

/-- `saveTodoBatch(todos)`: the per-item loop (the surrounding
BEGIN/COMMIT pair only guards against failures of the transaction mechanics
themselves, which the embedding cannot exhibit, so the loop is the whole
behaviour). -/
def saveTodoBatch (root : String) (s : AppState) :
    List SaveTodoInput → List BatchResult × AppState
  | [] => ([], s)
  | inp :: rest =>
      let rs := saveTodoStep root s inp
      let rec' := saveTodoBatch root rs.2 rest
      (rs.1 :: rec'.1, rec'.2)

/-- The cumulative state effect of a `saveTodoBatch` prefix: each item's
`saveTodo` effect applied in sequence, regardless of per-item failures. -/
def batchState (root : String) (s : AppState) (items : List SaveTodoInput) : AppState :=
  items.foldl (fun st it => (saveTodo root st it).2) s

/-- One iteration of the `moveTodosBatch` loop: report a missing todo as a
per-item failure without touching the state; otherwise move the todo via
`saveTodo({id, todo_list_id: target})`. -/
def moveStep (root : String) (target : Nat) (s : AppState) (id : Nat) :
    BatchResult × AppState :=
  match s.db.todos.find? (fun t => t.id == id) with
  | none =>
      ({ id := id, success := false
         error := some ("Todo with ID " ++ toString id ++ " not found") }, s)
  | some _ =>
      saveTodoStep root s { id := id, todo_list_id := some target }

/-- The per-item loop of `moveTodosBatch`. -/
def moveLoop (root : String) (target : Nat) (s : AppState) :
    List Nat → List BatchResult × AppState
  | [] => ([], s)
  | id :: rest =>
      let rs := moveStep root target s id
      let rec' := moveLoop root target rs.2 rest
      (rs.1 :: rec'.1, rec'.2)

/-- The cumulative state effect of a `moveTodosBatch` prefix. -/
def moveState (root : String) (target : Nat) (s : AppState) (ids : List Nat) : AppState :=
  ids.foldl (fun st id => (moveStep root target st id).2) s

/-- `moveTodosBatch(todoIds, targetTodoListId)`: the target list is validated
ONCE up front — when it does not exist the whole call fails with NotFound and
no per-item results are produced; otherwise the per-item loop runs. -/
def moveTodosBatch (root : String) (s : AppState) (ids : List Nat) (target : Nat) :
    Except DbError (List BatchResult) × AppState :=
  match s.db.lists.find? (fun l => l.id == target) with
  | none =>
      (Except.error (DbError.notFound
        ("Target todo list with ID " ++ toString target ++ " not found")), s)
  | some _ =>
      let rs := moveLoop root target s ids
      (Except.ok rs.1, rs.2)

/-- The store as the migration leaves it: empty tables, AUTOINCREMENT
counters at 1, nothing cached. -/
def emptyState : AppState := ⟨⟨[], [], [], 1, 1⟩, none⟩

/-- State after bootstrapping the project at location `/p` (one project, its
`"Inbox"` default list with id 1). -/
def bootSt : AppState := (initializeProjectContext "/p" emptyState).2

/-- `bootSt` with one todo (id 5) in the default list. -/
def padSt : AppState := (saveTodo "/p" bootSt { id := 5, content := some "x" }).2

/-- `bootSt` with four todos of priorities low, high, medium, high inserted
in that order with ids 1..4 (the ordering example of the spec). -/
def ordSt : AppState :=
  (saveTodo "/p" (saveTodo "/p" (saveTodo "/p" (saveTodo "/p" bootSt
    { id := 1, content := some "a", priority := some Priority.low }).2
    { id := 2, content := some "b", priority := some Priority.high }).2
    { id := 3, content := some "c", priority := some Priority.medium }).2
    { id := 4, content := some "d", priority := some Priority.high }).2

/-- Two bootstrapped projects at `/a` and `/b` (defaults 1 resp. 2), a todo
in list 2, no cache. -/
def twoProjSt : AppState :=
  ⟨⟨[⟨1, "a", "/a", some 1⟩, ⟨2, "b", "/b", some 2⟩],
    [⟨1, 1, "Inbox", some "Default list", none, none⟩,
     ⟨2, 2, "Inbox", some "Default list", none, none⟩],
    [⟨9, 2, "task", Status.pending, Priority.medium⟩], 3, 3⟩, none⟩

instance : IsTotal Todo todoOrder := by
  constructor
  intro a b
  simp only [todoOrder, todoLE, Bool.or_eq_true, Bool.and_eq_true, decide_eq_true_eq,
    beq_iff_eq]
  omega

instance : IsTrans Todo todoOrder := by
  constructor
  intro a b c hab hbc
  simp only [todoOrder, todoLE, Bool.or_eq_true, Bool.and_eq_true, decide_eq_true_eq,
    beq_iff_eq] at hab hbc ⊢
  omega

/-- C5 — the returned list of `getTodosByListId` is a permutation of the
todos of the requested list, ordered by priority rank (high before medium
before low) with ties broken by ascending id, and the call leaves the state
untouched. -/
theorem getTodosByListId_ordered (root : String) (s : AppState) (lid : Nat)
    (hlid : lid ≠ 0) :
    ((getTodosByListId root s (some lid)).1).Perm
      (s.db.todos.filter (fun t => t.todo_list_id == lid)) ∧
    ((getTodosByListId root s (some lid)).1).Pairwise (fun a b =>
      priorityWeight a.priority < priorityWeight b.priority ∨
        (priorityWeight a.priority = priorityWeight b.priority ∧ a.id ≤ b.id)) ∧
    (getTodosByListId root s (some lid)).2 = s := by
  have hfalsy : numFalsy (some lid) = false := by
    simp [numFalsy, hlid]
  have hres : getTodosByListId root s (some lid) =
      ((s.db.todos.filter (fun t => t.todo_list_id == lid)).insertionSort todoOrder, s) := by
    unfold getTodosByListId resolveTarget
    rw [hfalsy]
    simp
  rw [hres]
  refine ⟨List.perm_insertionSort _ _, ?_, rfl⟩
  have h := List.sorted_insertionSort todoOrder
    (s.db.todos.filter (fun t => t.todo_list_id == lid))
  refine h.imp ?_
  intro a b hab
  simpa only [todoOrder, todoLE, Bool.or_eq_true, Bool.and_eq_true, decide_eq_true_eq,
    beq_iff_eq] using hab

/-- Witness for C5: on priorities [low, high, medium, high] with ids 1..4
the returned order is [2, 4, 3, 1]. -/
theorem getTodosByListId_ordered_witness :
    ((1 : Nat) ≠ 0) ∧
    ((getTodosByListId "/p" ordSt (some 1)).1.map (fun t => t.id) = [2, 4, 3, 1]) ∧
    ((getTodosByListId "/p" ordSt (some 1)).1).Perm
      (ordSt.db.todos.filter (fun t => t.todo_list_id == 1)) :=
  ⟨by decide, by decide, (getTodosByListId_ordered "/p" ordSt 1 (by decide)).1⟩

/-- A proper prefix of `p` is a prefix of `p.dropLast`. -/
theorem prefix_dropLast_of_ne {q p : List String} (hq : q <+: p) (hne : q ≠ p) :
    q <+: p.dropLast := by
  have hlt : q.length < p.length := by
    rcases Nat.lt_or_ge q.length p.length with h | h
    · exact h
    · exact absurd (hq.eq_of_length (Nat.le_antisymm hq.length_le h)) hne
  have htake : q = List.take q.length p := List.prefix_iff_eq_take.mp hq
  rw [List.dropLast_eq_take]
  have : q = List.take q.length (List.take (p.length - 1) p) := by
    rw [List.take_take]
    have : q.length ⊓ (p.length - 1) = q.length := by
      simp only [inf_eq_left]
      omega
    rw [this]
    exact htake
  rw [this]
  exact List.take_prefix _ _

/-- When no ancestor-or-self of `p` holds an indicator, the walk reaches the
root and gives up. -/
theorem walkUp_eq_none (indic : List String → Bool) (p : List String)
    (h : ∀ q, q <+: p → indic q = false) : walkUp indic p = none := by
  induction p using walkUp.induct indic with
  | case1 p hind =>
      rw [h p (List.prefix_refl p)] at hind
      cases hind
  | case2 hind =>
      unfold walkUp
      simp at hind
      simp [hind]
  | case3 a l hind ih =>
      unfold walkUp
      simp only [hind, Bool.false_eq_true, if_false]
      exact ih (fun q hq => h q (hq.trans (List.dropLast_prefix (a :: l))))

/-- When some ancestor-or-self of `p` holds an indicator, the walk returns
the longest (nearest) such prefix. -/
theorem walkUp_eq_some (indic : List String → Bool) (p : List String)
    (h : ∃ q, q <+: p ∧ indic q = true) :
    ∃ r, walkUp indic p = some r ∧ r <+: p ∧ indic r = true ∧
      ∀ q, q <+: p → indic q = true → q.length ≤ r.length := by
  induction p using walkUp.induct indic with
  | case1 p hind =>
      refine ⟨p, ?_, List.prefix_refl p, hind, ?_⟩
      · unfold walkUp
        simp [hind]
      · intro q hq _
        exact hq.length_le
  | case2 hind =>
      exfalso
      obtain ⟨q, hq, hqi⟩ := h
      have : q = [] := List.prefix_nil.mp hq
      subst this
      rw [hqi] at hind
      exact hind rfl
  | case3 a l hind ih =>
      obtain ⟨q, hq, hqi⟩ := h
      have hqne : q ≠ a :: l := by
        intro hqp
        subst hqp
        rw [hqi] at hind
        exact hind rfl
      have hq2 : q <+: (a :: l).dropLast := prefix_dropLast_of_ne hq hqne
      obtain ⟨r, hwalk, hr, hri, hmax⟩ := ih ⟨q, hq2, hqi⟩
      refine ⟨r, ?_, hr.trans (List.dropLast_prefix (a :: l)), hri, ?_⟩
      · unfold walkUp
        simp only [hind, Bool.false_eq_true, if_false]
        exact hwalk
      · intro q' hq' hq'i
        have hq'ne : q' ≠ a :: l := by
          intro hqp
          subst hqp
          rw [hq'i] at hind
          exact hind rfl
        exact hmax q' (prefix_dropLast_of_ne hq' hq'ne) hq'i

/-- C9 (amended) — `findProjectRoot` returns, when any ancestor-or-self of
the resolved start contains a project indicator, the nearest such directory
as an absolute resolved path; when none does, it returns the original start
argument unchanged (which is absolute and resolved only when the caller's
start already was; the default start, the process working directory, always
is).  It is a total function: no error conditions. -/
theorem findProjectRoot_spec (indic : List String → Bool) (cwd : List String)
    (startPath : Option RawPath) (start : RawPath) (c : List String)
    (hs : start = startPath.getD ⟨true, cwd⟩) (hc : c = resolvePath cwd start) :
    ((∃ q, q <+: c ∧ indic q = true) →
      ∃ r, findProjectRoot indic cwd startPath = ⟨true, r⟩ ∧ r <+: c ∧ indic r = true ∧
        ∀ q, q <+: c → indic q = true → q.length ≤ r.length) ∧
    ((∀ q, q <+: c → indic q = false) →
      findProjectRoot indic cwd startPath = start) := by
  subst hs hc
  constructor
  · intro h
    obtain ⟨r, hwalk, hr, hri, hmax⟩ := walkUp_eq_some indic _ h
    refine ⟨r, ?_, hr, hri, hmax⟩
    unfold findProjectRoot
    rw [hwalk]
  · intro h
    unfold findProjectRoot
    rw [walkUp_eq_none indic _ h]

/-- The filesystem abstraction with no indicator anywhere. -/
def noIndicators : List String → Bool := fun _ => false

/-- An indicator exactly at `/home/u/proj`. -/
def projIndicator : List String → Bool := fun p => p == ["home", "u", "proj"]

/-- C9 counterexample — with a relative, unresolved `startPath` argument and
no indicator anywhere, `findProjectRoot` returns the start argument as given,
which is not an absolute resolved path (the resolved form would be
`/home/x`): the claim's "the returned value is the absolute, resolved path"
fails on the fallback branch. -/
theorem findProjectRoot_fallback_cex :
    (findProjectRoot noIndicators ["home"] (some ⟨false, ["x"]⟩)).absolute = false ∧
    findProjectRoot noIndicators ["home"] (some ⟨false, ["x"]⟩) ≠
      ⟨true, resolvePath ["home"] ⟨false, ["x"]⟩⟩ := by
  have h := (findProjectRoot_spec noIndicators ["home"] (some ⟨false, ["x"]⟩)
    ⟨false, ["x"]⟩ (resolvePath ["home"] ⟨false, ["x"]⟩) rfl rfl).2
    (fun q _ => rfl)
  rw [h]
  exact ⟨rfl, by decide⟩

/-- Witness for C9 (amended): the indicator-found branch returns the nearest
indicator directory as an absolute resolved path, and the fallback branch
returns the start unchanged. -/
theorem findProjectRoot_spec_witness :
    (∃ r, findProjectRoot projIndicator ["home", "u", "proj", "sub"] none = ⟨true, r⟩ ∧
      r <+: resolvePath ["home", "u", "proj", "sub"] ⟨true, ["home", "u", "proj", "sub"]⟩ ∧
      projIndicator r = true ∧
      ∀ q, q <+: resolvePath ["home", "u", "proj", "sub"] ⟨true, ["home", "u", "proj", "sub"]⟩ →
        projIndicator q = true → q.length ≤ r.length) ∧
    findProjectRoot noIndicators ["home"] none = ⟨true, ["home"]⟩ :=
  ⟨(findProjectRoot_spec projIndicator ["home", "u", "proj", "sub"] none
      ⟨true, ["home", "u", "proj", "sub"]⟩ _ rfl rfl).1
      ⟨["home", "u", "proj"], by decide, by decide⟩,
   (findProjectRoot_spec noIndicators ["home"] none ⟨true, ["home"]⟩ _ rfl rfl).2
      (fun q _ => rfl)⟩

/-- Filtering with a conjunction of predicates never keeps more elements
than filtering with one of them. -/
theorem length_filter_and_le {α : Type} (p q : α → Bool) (l : List α) :
    (l.filter (fun a => p a && q a)).length ≤ (l.filter p).length := by
  induction l with
  | nil => simp
  | cons a l ih =>
      by_cases hp : p a <;> by_cases hq : q a <;>
        simp [List.filter, hp, hq] <;> omega

theorem liveCompleted_le_liveTotal (todos : List Todo) (lid : Nat) :
    liveCompleted todos lid ≤ liveTotal todos lid :=
  length_filter_and_le _ _ todos

theorem recomputeStats_todos (db : Db) (lid : Nat) :
    (recomputeStats db lid).todos = db.todos := rfl

/-- After the trigger body runs, the stored statistics of the recomputed list
match the live counts. -/
theorem recomputeStats_live (db : Db) (lid : Nat) :
    listStatsLive (recomputeStats db lid) lid := by
  intro l hl hid
  simp only [recomputeStats, List.mem_map] at hl
  obtain ⟨a, ha, rfl⟩ := hl
  by_cases hid2 : a.id == lid
  · simp [hid2, recomputeStats_todos]
  · rw [if_neg hid2] at hid ⊢
    rw [hid] at hid2
    simp at hid2

/-- The trigger body preserves the completed-within-total inequality on every
list row. -/
theorem recomputeStats_statsLE (db : Db) (lid : Nat) (h : statsLE db) :
    statsLE (recomputeStats db lid) := by
  intro l hl c n hc hn
  simp only [recomputeStats, List.mem_map] at hl
  obtain ⟨a, ha, rfl⟩ := hl
  by_cases hid : a.id == lid
  · rw [if_pos hid] at hc hn
    simp only [Option.some.injEq] at hc hn
    subst hc
    subst hn
    exact liveCompleted_le_liveTotal _ _
  · rw [if_neg hid] at hc hn
    exact h a ha c n hc hn

/-- `statsLE` only looks at the `todo_list` rows. -/
theorem statsLE_set_todos (db : Db) (ts : List Todo) (h : statsLE db) :
    statsLE { db with todos := ts } := h

theorem applyOp_statsLE (db : Db) (op : TodoOp) (h : statsLE db) :
    statsLE (applyOp db op) := by
  cases op with
  | insert t =>
      exact recomputeStats_statsLE _ _ (statsLE_set_todos db _ h)
  | setStatus tid st =>
      simp only [applyOp, updateTodoStmt]
      cases hf : db.todos.find? (fun t => t.id == tid) with
      | none => exact h
      | some old => exact recomputeStats_statsLE _ _ (statsLE_set_todos db _ h)
  | delete tid =>
      simp only [applyOp, deleteTodoStmt]
      cases hf : db.todos.find? (fun t => t.id == tid) with
      | none => exact h
      | some old => exact recomputeStats_statsLE _ _ (statsLE_set_todos db _ h)

theorem applyOps_statsLE (db : Db) (ops : List TodoOp) (h : statsLE db) :
    statsLE (applyOps db ops) := by
  induction ops generalizing db with
  | nil => exact h
  | cons op rest ih => exact ih (applyOp db op) (applyOp_statsLE db op h)

/-- After an operation that commits a row change, the owning list's stored
statistics match the live counts. -/
theorem applyOp_stats_live (db : Db) (op : TodoOp) (lid : Nat)
    (h : opOwner db op = some lid) : listStatsLive (applyOp db op) lid := by
  cases op with
  | insert t =>
      simp only [opOwner, Option.some.injEq] at h
      subst h
      exact recomputeStats_live _ _
  | setStatus tid st =>
      simp only [opOwner, Option.map_eq_some'] at h
      obtain ⟨t, hf, hlid⟩ := h
      simp only [applyOp, updateTodoStmt, hf, hlid]
      exact recomputeStats_live _ _
  | delete tid =>
      simp only [opOwner, Option.map_eq_some'] at h
      obtain ⟨t, hf, hlid⟩ := h
      simp only [applyOp, deleteTodoStmt, hf, hlid]
      exact recomputeStats_live _ _

/-- C1 — along any sequence of todo insert / status-update / delete
operations, each committed operation leaves the owning list's stored
`num_completed` equal to the live count of completed todos in that list and
`total_count` equal to the live count of all its todos; and the invariant
`num_completed ≤ total_count` (for lists whose statistics have been computed,
i.e. are non-null) is preserved along the whole sequence. -/
theorem trigger_stats_correct (db : Db) (ops : List TodoOp) (op : TodoOp) (lid : Nat)
    (h : opOwner (applyOps db ops) op = some lid) :
    listStatsLive (applyOp (applyOps db ops) op) lid ∧
    (statsLE db → statsLE (applyOp (applyOps db ops) op)) :=
  ⟨applyOp_stats_live _ _ _ h,
   fun hle => applyOp_statsLE _ _ (applyOps_statsLE _ _ hle)⟩

/-- Witness for C1: inserting a completed todo into list 1 of a one-list
store makes its statistics (1, 1). -/
theorem trigger_stats_correct_witness :
    opOwner (applyOps bootSt.db []) (TodoOp.insert ⟨1, 1, "a", Status.completed, Priority.medium⟩) = some 1 ∧
    (listStatsLive (applyOp (applyOps bootSt.db [])
        (TodoOp.insert ⟨1, 1, "a", Status.completed, Priority.medium⟩)) 1 ∧
      (statsLE bootSt.db → statsLE (applyOp (applyOps bootSt.db [])
        (TodoOp.insert ⟨1, 1, "a", Status.completed, Priority.medium⟩)))) :=
  ⟨by decide,
   trigger_stats_correct bootSt.db [] (TodoOp.insert ⟨1, 1, "a", Status.completed, Priority.medium⟩) 1 (by decide)⟩

/-- The `UPDATE todo SET todo_list_id = B WHERE id = tid` statement issued by
`saveTodo({id, todo_list_id})` / `moveTodosBatch`, with its statistics
trigger. -/
def moveTodoStmt (db : Db) (tid B : Nat) : Db :=
  updateTodoStmt db tid (fun u => { u with todo_list_id := B })

/-- Re-pointing the rows with id `tid` at list `B` cannot increase list `A`'s
live count when `A ≠ B`. -/
theorem liveTotal_move_le (todos : List Todo) (tid A B : Nat) (hAB : A ≠ B) :
    liveTotal (todos.map (fun u => if u.id == tid then { u with todo_list_id := B } else u)) A ≤
      liveTotal todos A := by
  have hBA : (B == A) = false := beq_eq_false_iff_ne.mpr (Ne.symm hAB)
  induction todos with
  | nil => exact Nat.le_refl _
  | cons u l ih =>
      simp only [liveTotal, List.map_cons, List.filter_cons] at ih ⊢
      by_cases hid : (u.id == tid) = true
      · rw [if_pos hid]
        simp only [hBA, Bool.false_eq_true, if_false]
        by_cases hA : (u.todo_list_id == A) = true
        · simp only [hA, if_true, List.length_cons]
          omega
        · simp only [hA, Bool.false_eq_true, if_false]
          omega
      · rw [if_neg hid]
        by_cases hA : (u.todo_list_id == A) = true
        · simp only [hA, if_true, List.length_cons]
          omega
        · simp only [hA, Bool.false_eq_true, if_false]
          omega

/-- When some row with id `tid` lives in list `A`, re-pointing the id-`tid`
rows at `B ≠ A` strictly decreases list `A`'s live count. -/
theorem liveTotal_move_lt (todos : List Todo) (tid A B : Nat) (hAB : A ≠ B)
    (hw : ∃ u ∈ todos, (u.id == tid) = true ∧ u.todo_list_id = A) :
    liveTotal (todos.map (fun u => if u.id == tid then { u with todo_list_id := B } else u)) A <
      liveTotal todos A := by
  have hBA : (B == A) = false := beq_eq_false_iff_ne.mpr (Ne.symm hAB)
  induction todos with
  | nil => simp at hw
  | cons u l ih =>
      obtain ⟨w, hwmem, hwid, hwA⟩ := hw
      simp only [liveTotal, List.map_cons, List.filter_cons] at ih ⊢
      rcases List.mem_cons.mp hwmem with rfl | hwl
      · rw [if_pos hwid]
        simp only [hBA, Bool.false_eq_true, if_false]
        have hA : (w.todo_list_id == A) = true := by
          simp [hwA]
        simp only [hA, if_true, List.length_cons]
        have hle := liveTotal_move_le l tid A B hAB
        simp only [liveTotal] at hle
        omega
      · have hlt := ih ⟨w, hwl, hwid, hwA⟩
        by_cases hid : (u.id == tid) = true
        · rw [if_pos hid]
          simp only [hBA, Bool.false_eq_true, if_false]
          by_cases hA : (u.todo_list_id == A) = true
          · simp only [hA, if_true, List.length_cons]
            omega
          · simp only [hA, Bool.false_eq_true, if_false]
            omega
        · rw [if_neg hid]
          by_cases hA : (u.todo_list_id == A) = true
          · simp only [hA, if_true, List.length_cons]
            omega
          · simp only [hA, Bool.false_eq_true, if_false]
            omega

/-- C10 — moving an existing todo from list `A` to a different list `B` via
a `todo_list_id` UPDATE recomputes only the target list `B`'s statistics;
every list row other than `B` (in particular `A`'s) is left byte-for-byte
unchanged, and when `A`'s stored `total_count` was live before the move it no
longer matches `A`'s live count afterwards. -/
theorem move_stats_frame (db : Db) (tid A B : Nat) (t : Todo)
    (ht : db.todos.find? (fun u => u.id == tid) = some t)
    (hA : t.todo_list_id = A) (hAB : A ≠ B) :
    listStatsLive (moveTodoStmt db tid B) B ∧
    (∀ l ∈ db.lists, l.id ≠ B → l ∈ (moveTodoStmt db tid B).lists) ∧
    ((∀ l ∈ db.lists, l.id = A → l.total_count = some (liveTotal db.todos A)) →
      ∀ l ∈ (moveTodoStmt db tid B).lists, l.id = A →
        l.total_count ≠ some (liveTotal (moveTodoStmt db tid B).todos A)) := by
  have hunf : moveTodoStmt db tid B =
      recomputeStats
        { db with todos := db.todos.map (fun u => if u.id == tid then { u with todo_list_id := B } else u) }
        B := by
    unfold moveTodoStmt updateTodoStmt
    rw [ht]
  refine ⟨?_, ?_, ?_⟩
  · rw [hunf]
    exact recomputeStats_live _ _
  · intro l hl hlB
    rw [hunf]
    simp only [recomputeStats, List.mem_map]
    refine ⟨l, hl, ?_⟩
    rw [if_neg]
    simp [hlB]
  · intro hcorr l hl hlA
    rw [hunf] at hl ⊢
    simp only [recomputeStats, List.mem_map] at hl
    obtain ⟨a, ha, rfl⟩ := hl
    have haB : (a.id == B) = false := by
      by_cases hc : (a.id == B) = true
      · exfalso
        rw [if_pos hc] at hlA
        simp only at hlA
        rw [hlA] at hc
        simp only [beq_iff_eq] at hc
        exact hAB hc
      · simpa using hc
    rw [if_neg (by simp [haB])] at hlA ⊢
    have hstored : a.total_count = some (liveTotal db.todos A) := hcorr a ha hlA
    rw [hstored]
    have hlt : liveTotal
        (db.todos.map (fun u => if u.id == tid then { u with todo_list_id := B } else u)) A <
        liveTotal db.todos A := by
      refine liveTotal_move_lt db.todos tid A B hAB ?_
      exact ⟨t, List.mem_of_find?_eq_some ht, by simpa using List.find?_some ht, hA⟩
    intro hcontr
    simp only [recomputeStats, Option.some.injEq] at hcontr
    omega

/-- Concrete store for the C10 witness: two lists of project 1 with live
statistics, one pending todo (id 7) in list 1. -/
def moveDb : Db :=
  ⟨[⟨1, "p", "/p", some 1⟩],
   [⟨1, 1, "Inbox", none, some 0, some 1⟩, ⟨2, 1, "Other", none, some 0, some 0⟩],
   [⟨7, 1, "t", Status.pending, Priority.medium⟩], 2, 3⟩

/-- Witness for C10: moving todo 7 from list 1 to list 2 recomputes list 2,
leaves list 1's row unchanged, and makes list 1's stored `total_count`
stale. -/
theorem move_stats_frame_witness :
    moveDb.todos.find? (fun u => u.id == 7) = some ⟨7, 1, "t", Status.pending, Priority.medium⟩ ∧
    (listStatsLive (moveTodoStmt moveDb 7 2) 2 ∧
      (∀ l ∈ moveDb.lists, l.id ≠ 2 → l ∈ (moveTodoStmt moveDb 7 2).lists) ∧
      ((∀ l ∈ moveDb.lists, l.id = 1 → l.total_count = some (liveTotal moveDb.todos 1)) →
        ∀ l ∈ (moveTodoStmt moveDb 7 2).lists, l.id = 1 →
          l.total_count ≠ some (liveTotal (moveTodoStmt moveDb 7 2).todos 1))) :=
  ⟨by decide,
   move_stats_frame moveDb 7 1 2 ⟨7, 1, "t", Status.pending, Priority.medium⟩
     (by decide) rfl (by decide)⟩

/-- JS falsiness boundary for `content`: exactly `undefined` and `""`. -/
theorem strFalsy_iff (c : Option String) : strFalsy c = true ↔ c = none ∨ c = some "" := by
  cases c with
  | none => simp [strFalsy]
  | some s => simp [strFalsy]

/-- C3 — creating a todo (id unknown): the call fails with the
content-required validation error exactly when `content` is absent or the
empty string (all-whitespace content passes); with valid content and an
existing resolved target list, a row with the caller-supplied id is inserted
whose priority defaults to medium and status to pending. -/
theorem saveTodo_create_spec (root : String) (s : AppState) (inp : SaveTodoInput)
    (hnew : s.db.todos.find? (fun t => t.id == inp.id) = none) :
    ((saveTodo root s inp).1 =
        Except.error (DbError.validation "Content is required when creating a new todo") ↔
      (inp.content = none ∨ inp.content = some "")) ∧
    (∀ c, inp.content = some c → c ≠ "" →
      ∀ L, (resolveTarget root s inp.todo_list_id).2.db.lists.find?
          (fun l => l.id == (resolveTarget root s inp.todo_list_id).1) = some L →
        (saveTodo root s inp).1 = Except.ok
          { id := inp.id, todo_list_id := (resolveTarget root s inp.todo_list_id).1
            content := c, status := inp.status.getD Status.pending
            priority := inp.priority.getD Priority.medium } ∧
        (saveTodo root s inp).2.db.todos =
          (resolveTarget root s inp.todo_list_id).2.db.todos ++
            [{ id := inp.id, todo_list_id := (resolveTarget root s inp.todo_list_id).1
               content := c, status := inp.status.getD Status.pending
               priority := inp.priority.getD Priority.medium }] ∧
        (saveTodo root s inp).2.db.lists.map (fun l => l.id) =
          (resolveTarget root s inp.todo_list_id).2.db.lists.map (fun l => l.id)) := by
  constructor
  · constructor
    · intro h
      by_cases hsf : strFalsy inp.content = true
      · exact (strFalsy_iff inp.content).mp hsf
      · exfalso
        simp only [saveTodo, hnew] at h
        rw [if_neg hsf] at h
        cases hfl : (resolveTarget root s inp.todo_list_id).2.db.lists.find?
            (fun l => l.id == (resolveTarget root s inp.todo_list_id).1) with
        | none => rw [hfl] at h; cases h
        | some L => rw [hfl] at h; cases h
    · intro h
      have hsf : strFalsy inp.content = true := (strFalsy_iff inp.content).mpr h
      simp only [saveTodo, hnew]
      rw [if_pos hsf]
  · intro c hc hcne L hL
    have hsf : strFalsy inp.content = false := by
      rcases hfl : strFalsy inp.content with _ | _
      · rfl
      · exfalso
        rcases (strFalsy_iff inp.content).mp hfl with h0 | h0 <;> rw [hc] at h0
        · cases h0
        · exact hcne (by injection h0)
    simp only [saveTodo, hnew]
    rw [if_neg (by simp [hsf])]
    rw [hL]
    refine ⟨?_, ?_, ?_⟩
    · simp [hc]
    · simp only [insertTodo, recomputeStats_todos]
      simp [hc]
    · simp only [insertTodo, recomputeStats]
      simp only [List.map_map]
      apply List.map_congr_left
      intro a _
      by_cases hB : (a.id == (resolveTarget root s inp.todo_list_id).1) = true <;>
        simp [Function.comp, hB]

/-- Witness for C3: with no prior todo 1, all-whitespace content is accepted
and inserted into the default list with medium priority and pending status,
while absent content is rejected. -/
theorem saveTodo_create_spec_witness :
    bootSt.db.todos.find? (fun t => t.id == (1 : Nat)) = none ∧
    (saveTodo "/p" bootSt { id := 1, content := some "   " }).1 = Except.ok
      { id := 1, todo_list_id := 1, content := "   "
        status := Status.pending, priority := Priority.medium } ∧
    ((saveTodo "/p" bootSt { id := 1 }).1 =
        Except.error (DbError.validation "Content is required when creating a new todo") ↔
      (({ id := 1 } : SaveTodoInput).content = none ∨
        ({ id := 1 } : SaveTodoInput).content = some "")) :=
  ⟨by decide,
   ((saveTodo_create_spec "/p" bootSt { id := 1, content := some "   " } (by decide)).2
     "   " rfl (by decide) ⟨1, 1, "Inbox", some "Default list", none, none⟩ (by decide)).1,
   (saveTodo_create_spec "/p" bootSt { id := 1 } (by decide)).1⟩

instance {e a : Type} [DecidableEq e] [DecidableEq a] : DecidableEq (Except e a) := fun x y =>
  match x, y with
  | .error u, .error v =>
      if h : u = v then .isTrue (by rw [h])
      else .isFalse (fun hc => by cases hc; exact h rfl)
  | .ok u, .ok v =>
      if h : u = v then .isTrue (by rw [h])
      else .isFalse (fun hc => by cases hc; exact h rfl)
  | .error _, .ok _ => .isFalse (fun hc => Except.noConfusion hc)
  | .ok _, .error _ => .isFalse (fun hc => Except.noConfusion hc)

/-- C4 counterexample — on an existing todo (id 5), supplying
`todo_list_id: 0` — a list id that exists for no list — does NOT fail with
NotFound: JavaScript falsiness (`if (todo_list_id)`) skips the existence
check, the update is applied, and the todo's `todo_list_id` becomes the
dangling value 0 (the applied migration declares no foreign keys, so the
storage layer accepts it). -/
theorem saveTodo_patch_zero_cex :
    (padSt.db.todos.find? (fun t => t.id == (5 : Nat))).isSome = true ∧
    (∀ l ∈ padSt.db.lists, l.id ≠ 0) ∧
    (saveTodo "/p" padSt { id := 5, todo_list_id := some 0 }).1 =
      Except.ok { id := 5, todo_list_id := 0, content := "x"
                  status := Status.pending, priority := Priority.medium } ∧
    (saveTodo "/p" padSt { id := 5, todo_list_id := some 0 }).2.db.todos ≠ padSt.db.todos := by
  decide

/-- Whether a `saveTodoInput` supplies no field at all. -/
def noFields (inp : SaveTodoInput) : Prop :=
  inp.content = none ∧ inp.priority = none ∧ inp.status = none ∧ inp.todo_list_id = none

/-- C4 (amended) — patching an existing todo: only supplied fields are
changed and omitted fields keep their prior values; if `todo_list_id` is
supplied with a NONZERO value naming no existing list, the call fails with
NotFound and nothing changes (a supplied `todo_list_id` of 0 bypasses this
validation due to JS falsiness and is written as-is); if no field at all is
supplied, the call is a no-op returning the existing row. -/
theorem saveTodo_patch_spec (root : String) (s : AppState) (inp : SaveTodoInput)
    (existing : Todo)
    (hex : s.db.todos.find? (fun t => t.id == inp.id) = some existing) :
    (∀ lid, inp.todo_list_id = some lid → lid ≠ 0 →
      (∀ l ∈ s.db.lists, l.id ≠ lid) →
      (saveTodo root s inp).1 = Except.error (DbError.notFound
        ("Todo list with ID " ++ toString lid ++ " not found")) ∧
      (saveTodo root s inp).2 = s) ∧
    (noFields inp →
      (saveTodo root s inp).1 = Except.ok existing ∧ (saveTodo root s inp).2 = s) ∧
    ((inp.todo_list_id = none ∨ inp.todo_list_id = some 0 ∨
        (∃ lid, inp.todo_list_id = some lid ∧ ∃ l ∈ s.db.lists, l.id = lid)) →
      ¬noFields inp →
      (saveTodo root s inp).1 = Except.ok (patchTodo inp existing) ∧
      (saveTodo root s inp).2.db.todos =
        s.db.todos.map (fun t => if t.id == inp.id then patchTodo inp t else t) ∧
      (saveTodo root s inp).2.db.projects = s.db.projects ∧
      (saveTodo root s inp).2.cachedProject = s.cachedProject) := by
  refine ⟨?_, ?_, ?_⟩
  · intro lid hlid hlid0 hnone
    have hnf : numFalsy inp.todo_list_id = false := by
      rw [hlid]
      simp [numFalsy, hlid0]
    have hfind : s.db.lists.find? (fun l => some l.id == inp.todo_list_id) = none := by
      rw [List.find?_eq_none]
      intro l hl
      rw [hlid]
      simp only [Option.some.injEq, beq_iff_eq]
      exact hnone l hl
    simp only [saveTodo, hex]
    rw [if_pos (by rw [hnf, hfind]; rfl)]
    rw [hlid]
    exact ⟨rfl, rfl⟩
  · intro hnof
    obtain ⟨h1, h2, h3, h4⟩ := hnof
    simp only [saveTodo, hex]
    rw [if_neg (by rw [h4]; simp [numFalsy])]
    rw [if_pos (by rw [h1, h2, h3, h4]; rfl)]
    exact ⟨rfl, rfl⟩
  · intro hvalid hnof
    have hcond1 : (!(numFalsy inp.todo_list_id) &&
        (s.db.lists.find? (fun l => some l.id == inp.todo_list_id)).isNone) = false := by
      rcases hvalid with h | h | ⟨lid, hlid, l, hl, hlid2⟩
      · rw [h]; rfl
      · rw [h]; rfl
      · rcases hf : s.db.lists.find? (fun l => some l.id == inp.todo_list_id) with _ | L
        · exfalso
          rw [List.find?_eq_none] at hf
          refine hf l hl ?_
          rw [hlid, hlid2]
          exact beq_self_eq_true _
        · rw [hf]
          simp
    have hcond2 : (inp.content.isNone && inp.priority.isNone && inp.status.isNone &&
        inp.todo_list_id.isNone) = false := by
      by_contra hcontra
      refine hnof ?_
      simp only [Bool.not_eq_false, Bool.and_eq_true, Option.isNone_iff_eq_none] at hcontra
      exact ⟨hcontra.1.1.1, hcontra.1.1.2, hcontra.1.2, hcontra.2⟩
    simp only [saveTodo, hex]
    rw [if_neg (by rw [hcond1]; exact Bool.false_ne_true)]
    rw [if_neg (by rw [hcond2]; exact Bool.false_ne_true)]
    refine ⟨rfl, ?_, ?_, rfl⟩
    · simp only [updateTodoStmt, hex, recomputeStats_todos]
    · simp only [updateTodoStmt, hex]
      rfl

/-- Witness for C4 (amended): completing todo 5 changes only its status;
content and priority keep their prior values. -/
theorem saveTodo_patch_spec_witness :
    padSt.db.todos.find? (fun t => t.id == (5 : Nat)) =
      some ⟨5, 1, "x", Status.pending, Priority.medium⟩ ∧
    (saveTodo "/p" padSt { id := 5, status := some Status.completed }).1 =
      Except.ok ⟨5, 1, "x", Status.completed, Priority.medium⟩ :=
  ⟨by decide,
   ((saveTodo_patch_spec "/p" padSt { id := 5, status := some Status.completed }
       ⟨5, 1, "x", Status.pending, Priority.medium⟩ (by decide)).2.2
     (Or.inl rfl) (fun hnf => Option.noConfusion hnf.2.2.1)).1⟩

theorem ensureDefaultList_todos (pd : Project × Db) :
    (ensureDefaultList pd).2.db.todos = pd.2.todos := by
  unfold ensureDefaultList
  split <;> rfl

theorem ensureDefaultList_lists_mono (pd : Project × Db) (l : TodoList)
    (h : l ∈ pd.2.lists) : l ∈ (ensureDefaultList pd).2.db.lists := by
  unfold ensureDefaultList
  split
  · exact List.mem_append_left _ h
  · exact h

theorem projLookup_todos (root : String) (s : AppState) :
    (projLookup root s).2.todos = s.db.todos := by
  unfold projLookup
  split <;> rfl

theorem projLookup_lists (root : String) (s : AppState) :
    (projLookup root s).2.lists = s.db.lists := by
  unfold projLookup
  split <;> rfl

/-- Bootstrap never touches the `todo` table. -/
theorem initCtx_todos (root : String) (s : AppState) :
    (initializeProjectContext root s).2.db.todos = s.db.todos := by
  have huncached : (initializeProjectContextUncached root s).2.db.todos = s.db.todos := by
    unfold initializeProjectContextUncached
    rw [ensureDefaultList_todos, projLookup_todos]
  simp only [initializeProjectContext]
  cases hc : s.cachedProject with
  | none => exact huncached
  | some cp =>
      dsimp only
      by_cases hloc : (cp.location == root) = true
      · rw [if_pos hloc]
      · rw [if_neg hloc]
        exact huncached

/-- Bootstrap never removes a `todo_list` row. -/
theorem initCtx_lists_mono (root : String) (s : AppState) (l : TodoList)
    (h : l ∈ s.db.lists) : l ∈ (initializeProjectContext root s).2.db.lists := by
  have huncached : l ∈ (initializeProjectContextUncached root s).2.db.lists := by
    unfold initializeProjectContextUncached
    refine ensureDefaultList_lists_mono _ _ ?_
    rw [projLookup_lists]
    exact h
  simp only [initializeProjectContext]
  cases hc : s.cachedProject with
  | none => exact huncached
  | some cp =>
      dsimp only
      by_cases hloc : (cp.location == root) = true
      · rw [if_pos hloc]
        exact h
      · rw [if_neg hloc]
        exact huncached

/-- C6 (amended) — `deleteTodoList` refuses to delete the CURRENT
(resolved-location) project's default list: it fails with the
DomainRuleError and leaves every pre-existing list row and the whole `todo`
table intact.  (A list that is the default of a different, non-current
project carries no such protection — see the counterexample.) -/
theorem deleteTodoList_default_protected (root : String) (s : AppState) (id : Nat)
    (h : (initializeProjectContext root s).1.default_todo_list_id = some id) :
    (deleteTodoList root s id).1 =
      Except.error (DbError.domainRule "Cannot delete the default todo list for a project") ∧
    (∀ l ∈ s.db.lists, l ∈ (deleteTodoList root s id).2.db.lists) ∧
    (deleteTodoList root s id).2.db.todos = s.db.todos := by
  have hbeq : ((initializeProjectContext root s).1.default_todo_list_id == some id) = true := by
    rw [h]
    exact beq_self_eq_true _
  simp only [deleteTodoList]
  rw [if_pos hbeq]
  exact ⟨rfl, fun l hl => initCtx_lists_mono root s l hl, initCtx_todos root s⟩

/-- C6 counterexample — with two bootstrapped projects, deleting list 2 (the
default list of the NON-current project at `/b`) while the current location
is `/a` succeeds and removes the list: being "some project's" default does
not protect a list, only being the current project's default does. -/
theorem deleteTodoList_other_default_cex :
    (∃ p ∈ twoProjSt.db.projects, p.default_todo_list_id = some 2) ∧
    (deleteTodoList "/a" twoProjSt 2).1 = Except.ok () ∧
    (∀ l ∈ (deleteTodoList "/a" twoProjSt 2).2.db.lists, l.id ≠ 2) := by
  decide

/-- Witness for C6 (amended): deleting the current project's default list 1
fails with the domain error. -/
theorem deleteTodoList_default_protected_witness :
    (initializeProjectContext "/p" bootSt).1.default_todo_list_id = some 1 ∧
    (deleteTodoList "/p" bootSt 1).1 =
      Except.error (DbError.domainRule "Cannot delete the default todo list for a project") :=
  ⟨by decide, (deleteTodoList_default_protected "/p" bootSt 1 (by decide)).1⟩

/-- Number of Project rows at a given location. -/
def locCount (s : AppState) (root : String) : Nat :=
  (s.db.projects.filter (fun p => p.location == root)).length

theorem ensureDefaultList_location (pd : Project × Db) :
    (ensureDefaultList pd).1.location = pd.1.location := by
  unfold ensureDefaultList
  split <;> rfl

theorem projLookup_location (root : String) (s : AppState) :
    (projLookup root s).1.location = root := by
  unfold projLookup
  cases hf : s.db.projects.find? (fun p => p.location == root) with
  | none => rfl
  | some p =>
      dsimp only
      have := List.find?_some hf
      simpa [beq_iff_eq] using this

theorem initUncached_location (root : String) (s : AppState) :
    (initializeProjectContextUncached root s).1.location = root := by
  unfold initializeProjectContextUncached
  rw [ensureDefaultList_location, projLookup_location]

theorem initCtx_location (root : String) (s : AppState) :
    (initializeProjectContext root s).1.location = root := by
  simp only [initializeProjectContext]
  cases hc : s.cachedProject with
  | none => exact initUncached_location root s
  | some cp =>
      dsimp only
      by_cases hloc : (cp.location == root) = true
      · rw [if_pos hloc]
        simpa [beq_iff_eq] using hloc
      · rw [if_neg hloc]
        exact initUncached_location root s

theorem ensureDefaultList_cache (pd : Project × Db) :
    (ensureDefaultList pd).2.cachedProject = some (ensureDefaultList pd).1 := by
  unfold ensureDefaultList
  split <;> rfl

theorem initUncached_cache (root : String) (s : AppState) :
    (initializeProjectContextUncached root s).2.cachedProject =
      some (initializeProjectContextUncached root s).1 := by
  unfold initializeProjectContextUncached
  exact ensureDefaultList_cache _

/-- Bootstrap always caches exactly the project it returns. -/
theorem initCtx_cache (root : String) (s : AppState) :
    (initializeProjectContext root s).2.cachedProject =
      some (initializeProjectContext root s).1 := by
  simp only [initializeProjectContext]
  cases hc : s.cachedProject with
  | none => exact initUncached_cache root s
  | some cp =>
      dsimp only
      by_cases hloc : (cp.location == root) = true
      · rw [if_pos hloc]
        exact hc
      · rw [if_neg hloc]
        exact initUncached_cache root s

/-- A second bootstrap at the same location is served entirely from the cache
and changes nothing. -/
theorem initCtx_idem (root : String) (s : AppState) :
    initializeProjectContext root (initializeProjectContext root s).2 =
      ((initializeProjectContext root s).1, (initializeProjectContext root s).2) := by
  obtain ⟨p1, s1, hps⟩ : ∃ p1 s1, initializeProjectContext root s = (p1, s1) := ⟨_, _, rfl⟩
  rw [hps]
  have hcache : s1.cachedProject = some p1 := by
    have := initCtx_cache root s
    rw [hps] at this
    exact this
  have hloc : (p1.location == root) = true := by
    have h2 := initCtx_location root s
    rw [hps] at h2
    exact beq_iff_eq.mpr h2
  simp only [initializeProjectContext, hcache]
  rw [if_pos hloc]

theorem ensureDefaultList_default (pd : Project × Db)
    (h : ∀ lid, pd.1.default_todo_list_id = some lid → ∃ l ∈ pd.2.lists, l.id = lid) :
    ∃ lid, (ensureDefaultList pd).1.default_todo_list_id = some lid ∧
      ∃ l ∈ (ensureDefaultList pd).2.db.lists, l.id = lid := by
  unfold ensureDefaultList
  split
  · refine ⟨pd.2.nextListId, rfl,
      ⟨pd.2.nextListId, pd.1.id, "Inbox", some "Default list", none, none⟩, ?_, rfl⟩
    exact List.mem_append_right _ (List.mem_singleton.mpr rfl)
  · rename_i hfal
    cases hd : pd.1.default_todo_list_id with
    | none =>
        exfalso
        refine hfal ?_
        rw [hd]
        rfl
    | some lid =>
        obtain ⟨l, hl, hlid⟩ := h lid hd
        exact ⟨lid, rfl, l, hl, hlid⟩

theorem projLookup_default (root : String) (s : AppState)
    (hwf : ∀ p ∈ s.db.projects, ∀ lid, p.default_todo_list_id = some lid →
        ∃ l ∈ s.db.lists, l.id = lid) :
    ∀ lid, (projLookup root s).1.default_todo_list_id = some lid →
      ∃ l ∈ (projLookup root s).2.lists, l.id = lid := by
  unfold projLookup
  cases hf : s.db.projects.find? (fun p => p.location == root) with
  | some p =>
      dsimp only
      exact hwf p (List.mem_of_find?_eq_some hf)
  | none =>
      dsimp only
      intro lid hlid
      exact Option.noConfusion hlid

theorem initUncached_default (root : String) (s : AppState)
    (hwf : ∀ p ∈ s.db.projects, ∀ lid, p.default_todo_list_id = some lid →
        ∃ l ∈ s.db.lists, l.id = lid) :
    ∃ lid, (initializeProjectContextUncached root s).1.default_todo_list_id = some lid ∧
      ∃ l ∈ (initializeProjectContextUncached root s).2.db.lists, l.id = lid := by
  unfold initializeProjectContextUncached
  exact ensureDefaultList_default _ (projLookup_default root s hwf)

theorem initCtx_default (root : String) (s : AppState)
    (hwfP : ∀ p ∈ s.db.projects, ∀ lid, p.default_todo_list_id = some lid →
        ∃ l ∈ s.db.lists, l.id = lid)
    (hwfC : ∀ cp, s.cachedProject = some cp → cp.location = root →
        ∃ lid, cp.default_todo_list_id = some lid ∧ ∃ l ∈ s.db.lists, l.id = lid) :
    ∃ lid, (initializeProjectContext root s).1.default_todo_list_id = some lid ∧
      ∃ l ∈ (initializeProjectContext root s).2.db.lists, l.id = lid := by
  simp only [initializeProjectContext]
  cases hc : s.cachedProject with
  | none => exact initUncached_default root s hwfP
  | some cp =>
      dsimp only
      by_cases hloc : (cp.location == root) = true
      · rw [if_pos hloc]
        exact hwfC cp hc (by simpa [beq_iff_eq] using hloc)
      · rw [if_neg hloc]
        exact initUncached_default root s hwfP

/-- Mapping a location-preserving function over rows does not change the
per-location row count. -/
theorem filter_length_map_preserve {α : Type} (f : α → α) (p : α → Bool) (l : List α)
    (h : ∀ a, p (f a) = p a) : ((l.map f).filter p).length = (l.filter p).length := by
  rw [List.filter_map, List.length_map]
  congr 1
  exact List.filter_congr (fun a _ => h a)

theorem ensureDefaultList_locCount (pd : Project × Db) (root : String) :
    (((ensureDefaultList pd).2.db.projects).filter (fun p => p.location == root)).length =
      (pd.2.projects.filter (fun p => p.location == root)).length := by
  unfold ensureDefaultList
  split
  · dsimp only
    refine filter_length_map_preserve _ _ _ ?_
    intro a
    by_cases hid : (a.id == pd.1.id) = true <;> simp [hid]
  · rfl

theorem projLookup_locCount (root : String) (s : AppState) :
    (((projLookup root s).2.projects).filter (fun p => p.location == root)).length ≤
      max 1 ((s.db.projects.filter (fun p => p.location == root)).length) := by
  unfold projLookup
  cases hf : s.db.projects.find? (fun p => p.location == root) with
  | some p =>
      dsimp only
      exact Nat.le_max_right _ _
  | none =>
      dsimp only
      have hnil : s.db.projects.filter (fun p => p.location == root) = [] := by
        rw [List.filter_eq_nil_iff]
        exact List.find?_eq_none.mp hf
      rw [List.filter_append, hnil]
      simp

/-- A single bootstrap never creates a second Project row for the location:
afterwards the location's row count is at most `max 1 (previous count)`. -/
theorem initCtx_locCount (root : String) (s : AppState) :
    locCount (initializeProjectContext root s).2 root ≤ max 1 (locCount s root) := by
  unfold locCount
  simp only [initializeProjectContext]
  cases hc : s.cachedProject with
  | none =>
      unfold initializeProjectContextUncached
      rw [ensureDefaultList_locCount]
      exact projLookup_locCount root s
  | some cp =>
      dsimp only
      by_cases hloc : (cp.location == root) = true
      · rw [if_pos hloc]
        exact Nat.le_max_right _ _
      · rw [if_neg hloc]
        unfold initializeProjectContextUncached
        rw [ensureDefaultList_locCount]
        exact projLookup_locCount root s

/-- C2 — bootstrap is idempotent: a second `initializeProjectContext` at the
same location returns the same project (same id, same
`default_todo_list_id`) and leaves the state untouched; a single bootstrap
creates no duplicate Project row for the location; and (on a store whose
project rows and cache reference existing lists) the returned project always
carries a non-null `default_todo_list_id` naming an existing TodoList. -/
theorem bootstrap_idempotent (root : String) (s : AppState)
    (hwfP : ∀ p ∈ s.db.projects, ∀ lid, p.default_todo_list_id = some lid →
        ∃ l ∈ s.db.lists, l.id = lid)
    (hwfC : ∀ cp, s.cachedProject = some cp → cp.location = root →
        ∃ lid, cp.default_todo_list_id = some lid ∧ ∃ l ∈ s.db.lists, l.id = lid) :
    (initializeProjectContext root (initializeProjectContext root s).2).1 =
      (initializeProjectContext root s).1 ∧
    (initializeProjectContext root (initializeProjectContext root s).2).2 =
      (initializeProjectContext root s).2 ∧
    locCount (initializeProjectContext root s).2 root ≤ max 1 (locCount s root) ∧
    (∃ lid, (initializeProjectContext root s).1.default_todo_list_id = some lid ∧
      ∃ l ∈ (initializeProjectContext root s).2.db.lists, l.id = lid) := by
  have hidem := initCtx_idem root s
  exact ⟨by rw [hidem], by rw [hidem], initCtx_locCount root s,
    initCtx_default root s hwfP hwfC⟩

/-- Witness for C2: bootstrapping twice from the empty store yields the same
project both times, at most one row for the location, and a usable default
list. -/
theorem bootstrap_idempotent_witness :
    (initializeProjectContext "/p" (initializeProjectContext "/p" emptyState).2).1 =
      (initializeProjectContext "/p" emptyState).1 ∧
    locCount (initializeProjectContext "/p" emptyState).2 "/p" ≤
      max 1 (locCount emptyState "/p") ∧
    (∃ lid, (initializeProjectContext "/p" emptyState).1.default_todo_list_id = some lid ∧
      ∃ l ∈ (initializeProjectContext "/p" emptyState).2.db.lists, l.id = lid) :=
  have h := bootstrap_idempotent "/p" emptyState (by decide)
    (fun cp hcp => Option.noConfusion hcp)
  ⟨h.1, h.2.2.1, h.2.2.2⟩

/-- Whether an `Except` result is a success. -/
def isOkB {e a : Type} : Except e a → Bool
  | .ok _ => true
  | .error _ => false

theorem saveTodoStep_id (root : String) (s : AppState) (inp : SaveTodoInput) :
    (saveTodoStep root s inp).1.id = inp.id := by
  unfold saveTodoStep
  cases h : saveTodo root s inp with
  | mk r s2 => cases r <;> rfl

theorem saveTodoStep_state (root : String) (s : AppState) (inp : SaveTodoInput) :
    (saveTodoStep root s inp).2 = (saveTodo root s inp).2 := by
  unfold saveTodoStep
  cases h : saveTodo root s inp with
  | mk r s2 => cases r <;> rfl

theorem saveTodoStep_success (root : String) (s : AppState) (inp : SaveTodoInput) :
    (saveTodoStep root s inp).1.success = isOkB (saveTodo root s inp).1 := by
  unfold saveTodoStep
  cases h : saveTodo root s inp with
  | mk r s2 => cases r <;> rfl

/-- C7 — `saveTodoBatch` is a best-effort batch: the result list has exactly
one entry per input item, in input order and carrying that item's id; each
entry is marked success or failure according to its own `saveTodo` outcome at
its turn; and the final state is the sequential composition of every item's
individual `saveTodo` effect — a per-item failure aborts nothing and rolls
nothing back. -/
theorem saveTodoBatch_best_effort (root : String) (s : AppState)
    (items : List SaveTodoInput) :
    (saveTodoBatch root s items).1.map (fun r => r.id) = items.map (fun it => it.id) ∧
    (saveTodoBatch root s items).2 = batchState root s items ∧
    ∀ i, i < items.length →
      (((saveTodoBatch root s items).1[i]?).map (fun r => r.success)) =
        ((items[i]?).map (fun it =>
          isOkB (saveTodo root (batchState root s (items.take i)) it).1)) := by
  induction items generalizing s with
  | nil =>
      refine ⟨rfl, rfl, ?_⟩
      intro i hi
      simp at hi
  | cons it rest ih =>
      obtain ⟨ih1, ih2, ih3⟩ := ih (saveTodo root s it).2
      have hcons1 : (saveTodoBatch root s (it :: rest)).1 =
          (saveTodoStep root s it).1 ::
            (saveTodoBatch root (saveTodoStep root s it).2 rest).1 := rfl
      have hcons2 : (saveTodoBatch root s (it :: rest)).2 =
          (saveTodoBatch root (saveTodoStep root s it).2 rest).2 := rfl
      have hstep := saveTodoStep_state root s it
      refine ⟨?_, ?_, ?_⟩
      · rw [hcons1, List.map_cons, saveTodoStep_id, hstep, ih1, List.map_cons]
      · rw [hcons2, hstep, ih2]
        rfl
      · intro i hi
        cases i with
        | zero =>
            rw [hcons1]
            simp only [List.getElem?_cons_zero, Option.map_some']
            rw [saveTodoStep_success]
            rfl
        | succ n =>
            rw [hcons1, hstep]
            simp only [List.getElem?_cons_succ]
            have hn : n < rest.length := by simpa using hi
            exact ih3 n hn

/-- Witness for C7: a valid item followed by a content-less (invalid) item
yields one success and one failure entry, the valid todo is persisted, and
the final state equals the composition of the per-item effects. -/
theorem saveTodoBatch_best_effort_witness :
    (saveTodoBatch "/p" bootSt
        [{ id := 1, content := some "ok" }, { id := 2 }]).1.map
        (fun r => (r.id, r.success)) = [(1, true), (2, false)] ∧
    (saveTodoBatch "/p" bootSt
        [{ id := 1, content := some "ok" }, { id := 2 }]).2.db.todos.map
        (fun t => t.id) = [1] ∧
    (saveTodoBatch "/p" bootSt [{ id := 1, content := some "ok" }, { id := 2 }]).2 =
      batchState "/p" bootSt [{ id := 1, content := some "ok" }, { id := 2 }] :=
  ⟨by decide, by decide,
   (saveTodoBatch_best_effort "/p" bootSt
     [{ id := 1, content := some "ok" }, { id := 2 }]).2.1⟩

/-- The trigger body preserves which list ids exist. -/
theorem recomputeStats_inv (db : Db) (lid tgt : Nat)
    (hinv : ∃ l ∈ db.lists, l.id = tgt) :
    ∃ l ∈ (recomputeStats db lid).lists, l.id = tgt := by
  obtain ⟨l, hl, hlid⟩ := hinv
  refine ⟨_, List.mem_map.mpr ⟨l, hl, rfl⟩, ?_⟩
  by_cases hB : (l.id == lid) = true
  · rw [if_pos hB]
    exact hlid
  · rw [if_neg hB]
    exact hlid

/-- A `saveTodo` patch (the todo exists) preserves which list ids exist. -/
theorem saveTodo_lists_inv (root : String) (s : AppState) (inp : SaveTodoInput)
    (t : Todo) (hex : s.db.todos.find? (fun u => u.id == inp.id) = some t)
    (tgt : Nat) (hinv : ∃ l ∈ s.db.lists, l.id = tgt) :
    ∃ l ∈ (saveTodo root s inp).2.db.lists, l.id = tgt := by
  simp only [saveTodo, hex]
  split
  · exact hinv
  · split
    · exact hinv
    · simp only [updateTodoStmt, hex]
      exact recomputeStats_inv _ _ _ hinv

/-- Moving an existing todo to an existing target list always succeeds. -/
theorem saveTodo_move_ok (root : String) (s : AppState) (id target : Nat) (t : Todo)
    (hex : s.db.todos.find? (fun u => u.id == id) = some t)
    (hinv : ∃ l ∈ s.db.lists, l.id = target) :
    isOkB (saveTodo root s { id := id, todo_list_id := some target }).1 = true := by
  have hcond1 : (!(numFalsy (some target)) &&
      (s.db.lists.find? (fun l => some l.id == some target)).isNone) = false := by
    by_cases ht0 : target = 0
    · subst ht0
      rfl
    · obtain ⟨l, hl, hlid⟩ := hinv
      rcases hf : s.db.lists.find? (fun l => some l.id == some target) with _ | L
      · exfalso
        rw [List.find?_eq_none] at hf
        refine hf l hl ?_
        rw [hlid]
        exact beq_self_eq_true _
      · rw [hf]
        simp
  simp only [saveTodo, hex]
  rw [if_neg (by rw [hcond1]; exact Bool.false_ne_true)]
  rw [if_neg (by exact Bool.false_ne_true)]
  rfl

theorem moveStep_id (root : String) (target : Nat) (s : AppState) (id : Nat) :
    (moveStep root target s id).1.id = id := by
  unfold moveStep
  cases h : s.db.todos.find? (fun t => t.id == id) with
  | none => rfl
  | some t =>
      dsimp only
      exact saveTodoStep_id root s _

theorem moveStep_inv (root : String) (target : Nat) (s : AppState) (id : Nat)
    (hinv : ∃ l ∈ s.db.lists, l.id = target) :
    ∃ l ∈ (moveStep root target s id).2.db.lists, l.id = target := by
  unfold moveStep
  cases h : s.db.todos.find? (fun t => t.id == id) with
  | none => exact hinv
  | some t =>
      dsimp only
      rw [saveTodoStep_state]
      exact saveTodo_lists_inv root s _ t h target hinv

/-- Per-item outcome of the move loop: success exactly when the todo exists
at that item's turn. -/
theorem moveStep_success (root : String) (target : Nat) (s : AppState) (id : Nat)
    (hinv : ∃ l ∈ s.db.lists, l.id = target) :
    (moveStep root target s id).1.success =
      (s.db.todos.find? (fun t => t.id == id)).isSome := by
  unfold moveStep
  cases h : s.db.todos.find? (fun t => t.id == id) with
  | none => rfl
  | some t =>
      dsimp only
      rw [saveTodoStep_success]
      rw [saveTodo_move_ok root s id target t h hinv]
      rfl

theorem moveLoop_spec (root : String) (target : Nat) (s : AppState) (ids : List Nat)
    (hinv : ∃ l ∈ s.db.lists, l.id = target) :
    (moveLoop root target s ids).1.map (fun r => r.id) = ids ∧
    (moveLoop root target s ids).2 = moveState root target s ids ∧
    ∀ i, i < ids.length →
      (((moveLoop root target s ids).1[i]?).map (fun r => r.success)) =
        ((ids[i]?).map (fun id =>
          ((moveState root target s (ids.take i)).db.todos.find?
            (fun t => t.id == id)).isSome)) := by
  induction ids generalizing s with
  | nil =>
      refine ⟨rfl, rfl, ?_⟩
      intro i hi
      simp at hi
  | cons id rest ih =>
      obtain ⟨ih1, ih2, ih3⟩ :=
        ih (moveStep root target s id).2 (moveStep_inv root target s id hinv)
      have hcons1 : (moveLoop root target s (id :: rest)).1 =
          (moveStep root target s id).1 ::
            (moveLoop root target (moveStep root target s id).2 rest).1 := rfl
      have hcons2 : (moveLoop root target s (id :: rest)).2 =
          (moveLoop root target (moveStep root target s id).2 rest).2 := rfl
      refine ⟨?_, ?_, ?_⟩
      · rw [hcons1, List.map_cons, moveStep_id, ih1]
      · rw [hcons2, ih2]
        rfl
      · intro i hi
        cases i with
        | zero =>
            rw [hcons1]
            simp only [List.getElem?_cons_zero, Option.map_some']
            rw [moveStep_success root target s id hinv]
            rfl
        | succ n =>
            rw [hcons1]
            simp only [List.getElem?_cons_succ]
            have hn : n < rest.length := by simpa using hi
            exact ih3 n hn

/-- C8 — `moveTodosBatch` validates the target list once, up front: when no
list has the target id the whole call fails with NotFound, the state is
untouched and no per-item results exist; when the target exists, the loop
runs to the end producing one entry per input id in order, each id's entry
failing exactly when that todo does not exist at its turn, and the final
state is the sequential composition of the per-item move effects. -/
theorem moveTodosBatch_spec (root : String) (s : AppState) (ids : List Nat)
    (target : Nat) :
    ((∀ l ∈ s.db.lists, l.id ≠ target) →
      moveTodosBatch root s ids target =
        (Except.error (DbError.notFound
          ("Target todo list with ID " ++ toString target ++ " not found")), s)) ∧
    ((∃ l ∈ s.db.lists, l.id = target) →
      moveTodosBatch root s ids target =
        (Except.ok (moveLoop root target s ids).1, moveState root target s ids) ∧
      (moveLoop root target s ids).1.map (fun r => r.id) = ids ∧
      ∀ i, i < ids.length →
        (((moveLoop root target s ids).1[i]?).map (fun r => r.success)) =
          ((ids[i]?).map (fun id =>
            ((moveState root target s (ids.take i)).db.todos.find?
              (fun t => t.id == id)).isSome))) := by
  constructor
  · intro hnone
    have hf : s.db.lists.find? (fun l => l.id == target) = none := by
      rw [List.find?_eq_none]
      intro l hl
      simp only [beq_iff_eq]
      exact hnone l hl
    simp only [moveTodosBatch, hf]
  · intro hinv
    obtain ⟨hm1, hm2, hm3⟩ := moveLoop_spec root target s ids hinv
    rcases hf : s.db.lists.find? (fun l => l.id == target) with _ | L
    · exfalso
      obtain ⟨l, hl, hlid⟩ := hinv
      rw [List.find?_eq_none] at hf
      refine hf l hl ?_
      rw [hlid]
      exact beq_self_eq_true _
    · refine ⟨?_, hm1, hm3⟩
      simp only [moveTodosBatch, hf]
      rw [hm2]

/-- Witness for C8: with the default list as target, moving [5, 99] (todo 5
exists, 99 does not) produces an in-order success/failure pair, and a
missing target list fails the whole call. -/
theorem moveTodosBatch_spec_witness :
    (∃ l ∈ padSt.db.lists, l.id = 1) ∧
    (moveTodosBatch "/p" padSt [5, 99] 1 =
        (Except.ok (moveLoop "/p" 1 padSt [5, 99]).1, moveState "/p" 1 padSt [5, 99]) ∧
      (moveLoop "/p" 1 padSt [5, 99]).1.map (fun r => r.id) = [5, 99] ∧
      ∀ i, i < ([5, 99] : List Nat).length →
        (((moveLoop "/p" 1 padSt [5, 99]).1[i]?).map (fun r => r.success)) =
          ((([5, 99] : List Nat)[i]?).map (fun id =>
            ((moveState "/p" 1 padSt (([5, 99] : List Nat).take i)).db.todos.find?
              (fun t => t.id == id)).isSome))) ∧
    (moveLoop "/p" 1 padSt [5, 99]).1.map (fun r => (r.id, r.success)) =
      [(5, true), (99, false)] :=
  ⟨by decide, (moveTodosBatch_spec "/p" padSt [5, 99] 1).2 (by decide), by decide⟩
